import Mathlib

/-!
Shallow embedding of `02_parse.py` from the `data_fdic` repository: the
record flattener, variable-definition loader, schema inferrer, type coercer
and table assembler, together with theorems checking the specification's
claims about them.

Python scalars are modelled by the inductive `Json` below; Python floats are
modelled as rationals (the numeric values occurring in the claims are exact,
and binary floating-point shortest-repr printing is outside the scope of this
embedding, see `floatRepr`).  Python exceptions that can escape the modelled
code are made explicit with `Except PyErr`.
-/

namespace FdicParse

/-- A JSON/Python value as held by the pipeline: `null` (Python `None`),
booleans, integers, floats (as rationals), strings, arrays and objects. -/
inductive Json where
  | null : Json
  | b : Bool → Json
  | i : Int → Json
  | f : ℚ → Json
  | s : String → Json
  | arr : List Json → Json
  | obj : List (String × Json) → Json

/-- A Python dict with string keys, as an association list (Python dict keys
are unique; lookups below take the first matching entry). -/
abbrev Obj := List (String × Json)

/-- Dict lookup: `d[k]` / `k in d`, returning `none` when the key is absent. -/
def lookup? : Obj → String → Option Json
  | [], _ => none
  | (k', v) :: rest, k => if k' = k then some v else lookup? rest k

/-- The keys of a record, in order. -/
def keysOf (r : Obj) : List String := r.map Prod.fst

/-- Errors of the source runtime that the modelled code can raise. -/
inductive PyErr where
  | typeError : PyErr
  | valueError : PyErr
  | attributeError : PyErr
deriving DecidableEq, Repr

/-- Python truthiness (`bool(v)`): `None`, `False`, zero numbers, empty
strings and empty containers are falsy; everything else is truthy. -/
def pyTruthy : Json → Bool
  | Json.null => false
  | Json.b bv => bv
  | Json.i n => n != 0
  | Json.f q => q != 0
  | Json.s st => st != ""
  | Json.arr xs => !xs.isEmpty
  | Json.obj kvs => !kvs.isEmpty

/-- The guard `value is None or value == ""` used by `coerce_value` and
`parse_date` (Python `==` between a non-string and `""` is `False`). -/
def isNoneOrEmptyStr : Json → Bool
  | Json.null => true
  | Json.s st => st == ""
  | _ => false

/-- Split a character list on a separator character (used to model the
anchored `strptime` patterns, whose fields contain no separator). -/
def splitOnChar (sep : Char) : List Char → List (List Char)
  | [] => [[]]
  | c :: rest =>
    let r := splitOnChar sep rest
    if c = sep then [] :: r
    else
      match r with
      | h :: t => (c :: h) :: t
      | [] => [[c]]

/-- Numeric value of a digit string. -/
def natOfDigits (l : List Char) : ℕ := l.foldl (fun a c => a * 10 + (c.toNat - 48)) 0

/-- `strptime` `%m` field: one or two digits with value 1..12. -/
def monthNum (l : List Char) : Option ℕ :=
  if (l.length = 1 ∨ l.length = 2) ∧ l.all Char.isDigit then
    let m := natOfDigits l
    if 1 ≤ m ∧ m ≤ 12 then some m else none
  else none

/-- `strptime` `%d` field: one or two digits with value 1..31 (calendar
validity against the month is checked separately, as `datetime` does). -/
def dayNum (l : List Char) : Option ℕ :=
  if (l.length = 1 ∨ l.length = 2) ∧ l.all Char.isDigit then
    let d := natOfDigits l
    if 1 ≤ d ∧ d ≤ 31 then some d else none
  else none

/-- `strptime` `%Y` field: exactly four digits; `datetime` then requires the
year to be at least 1. -/
def yearNum (l : List Char) : Option ℕ :=
  if l.length = 4 ∧ l.all Char.isDigit then
    let y := natOfDigits l
    if 1 ≤ y then some y else none
  else none

/-- Gregorian leap year. -/
def isLeap (y : ℕ) : Bool := y % 4 == 0 && (y % 100 != 0 || y % 400 == 0)

/-- Days in a month, as validated by `datetime`. -/
def daysInMonth (y m : ℕ) : ℕ :=
  if m = 2 then (if isLeap y then 29 else 28)
  else if m = 4 ∨ m = 6 ∨ m = 9 ∨ m = 11 then 30 else 31

/-- A calendar date (`datetime.date`). -/
structure Date where
  year : ℕ
  month : ℕ
  day : ℕ
deriving DecidableEq, Repr

/-- `datetime.strptime(s, "%m/%d/%Y").date()`: anchored match of
month/day/4-digit-year separated by slashes, then calendar validation. -/
def parseMDY (s : String) : Option Date :=
  match splitOnChar '/' s.toList with
  | [a, b, c] => do
    let m ← monthNum a
    let d ← dayNum b
    let y ← yearNum c
    if d ≤ daysInMonth y m then some ⟨y, m, d⟩ else none
  | _ => none

/-- `datetime.strptime(s, "%Y-%m-%d").date()`. -/
def parseISO (s : String) : Option Date :=
  match splitOnChar '-' s.toList with
  | [c, a, b] => do
    let y ← yearNum c
    let m ← monthNum a
    let d ← dayNum b
    if d ≤ daysInMonth y m then some ⟨y, m, d⟩ else none
  | _ => none

/-- `datetime.strptime(value, fmt)` on an arbitrary value: raises
`ValueError` when the string does not match the format, and `TypeError` when
the argument is not a string at all. -/
def strptimeWith (p : String → Option Date) (v : Json) : Except PyErr Date :=
  match v with
  | Json.s st =>
    match p st with
    | some d => Except.ok d
    | none => Except.error PyErr.valueError
  | _ => Except.error PyErr.typeError

/-- `parse_date` (02_parse.py lines 138-150): `None`/`""` give `None`; the
two formats are tried in order, each under `except ValueError` only — any
other exception (notably `TypeError` for non-string input) propagates. -/
def parse_date (v : Json) : Except PyErr (Option Date) :=
  if isNoneOrEmptyStr v then Except.ok none
  else
    match strptimeWith parseMDY v with
    | Except.ok d => Except.ok (some d)
    | Except.error PyErr.valueError =>
      match strptimeWith parseISO v with
      | Except.ok d => Except.ok (some d)
      | Except.error PyErr.valueError => Except.ok none
      | Except.error e => Except.error e
    | Except.error e => Except.error e

/-- Characters stripped by `int(...)`/`float(...)` around a string argument
(ASCII whitespace; exotic unicode space stripping is out of scope). -/
def isPySpace (c : Char) : Bool :=
  c == ' ' || c == '\t' || c == '\n' || c == '\r' || c == '\x0b' || c == '\x0c'

/-- Strip leading and trailing whitespace from a character list. -/
def stripSpaces (l : List Char) : List Char :=
  ((l.dropWhile isPySpace).reverse.dropWhile isPySpace).reverse

mutual
/-- Digit run as accepted by `int(...)`: nonempty digits, single underscores
allowed between digits (`digitsURest` handles positions after a digit). -/
def digitsU : List Char → Bool
  | [] => false
  | c :: rest => c.isDigit && digitsURest rest
/-- See `digitsU`: after a digit, accept the end, another digit, or an
underscore that must be followed by more digits. -/
def digitsURest : List Char → Bool
  | [] => true
  | '_' :: rest => digitsU rest
  | c :: rest => c.isDigit && digitsURest rest
end

/-- `int(s)` on a string: strip whitespace, optional sign, digit run with
underscores; `ValueError` (here `none`) otherwise. -/
def pyIntOfString (s : String) : Option Int :=
  let t := stripSpaces s.toList
  match t with
  | '+' :: rest =>
    if digitsU rest then some (natOfDigits (rest.filter (fun c => c != '_'))) else none
  | '-' :: rest =>
    if digitsU rest then some (-(natOfDigits (rest.filter (fun c => c != '_')) : Int)) else none
  | l => if digitsU l then some (natOfDigits (l.filter (fun c => c != '_'))) else none

/-- Mantissa of a float literal: digits, optionally a point and more digits,
with at least one digit overall. -/
def mantVal (l : List Char) : Option ℚ :=
  match l.span Char.isDigit with
  | (ip, []) => if ip = [] then none else some ((natOfDigits ip : ℚ))
  | (ip, '.' :: fp) =>
    if fp.all Char.isDigit ∧ (ip ≠ [] ∨ fp ≠ []) then
      some ((natOfDigits ip : ℚ) + (natOfDigits fp : ℚ) / (10 : ℚ) ^ fp.length)
    else none
  | _ => none

/-- Exponent of a float literal: optional sign then nonempty digits. -/
def expVal (l : List Char) : Option ℤ :=
  match l with
  | '+' :: r => if r ≠ [] ∧ r.all Char.isDigit then some ((natOfDigits r : ℤ)) else none
  | '-' :: r => if r ≠ [] ∧ r.all Char.isDigit then some (-(natOfDigits r : ℤ)) else none
  | r => if r ≠ [] ∧ r.all Char.isDigit then some ((natOfDigits r : ℤ)) else none

/-- Unsigned part of `float(s)`: mantissa and optional `e`/`E` exponent. -/
def floatMag (l : List Char) : Option ℚ :=
  match l.span (fun c => !(c == 'e' || c == 'E')) with
  | (mant, []) => mantVal mant
  | (mant, _ :: expL) => do
    let m ← mantVal mant
    let e ← expVal expL
    pure (m * (10 : ℚ) ^ e)

/-- `float(s)` on a string, as an exact rational (the special tokens
`inf`/`nan`, and underscores in float literals, are outside this model). -/
def pyFloatOfString (s : String) : Option ℚ :=
  match stripSpaces s.toList with
  | '+' :: r => floatMag r
  | '-' :: r => (floatMag r).map Neg.neg
  | r => floatMag r

/-- Decimal-point rendering stand-in for Python float `repr`; exact binary
shortest-repr printing is outside the scope of this embedding. -/
def floatRepr (q : ℚ) : String :=
  if q.den = 1 then toString q.num ++ ".0"
  else toString q.num ++ "/" ++ toString q.den

/-- An apostrophe character, for Python container `repr`. -/
def quoteMark : String := String.singleton (Char.ofNat 39)

mutual
/-- Python `repr` of a value (string escaping inside `repr` is abstracted;
only scalars reach `str()` in practice in this pipeline). -/
def pyRepr : Json → String
  | Json.null => "None"
  | Json.b true => "True"
  | Json.b false => "False"
  | Json.i n => toString n
  | Json.f q => floatRepr q
  | Json.s st => quoteMark ++ st ++ quoteMark
  | Json.arr xs => "[" ++ pyReprList xs ++ "]"
  | Json.obj kvs => "\x7b" ++ pyReprObj kvs ++ "\x7d"
/-- Comma-separated `repr` of list elements. -/
def pyReprList : List Json → String
  | [] => ""
  | [x] => pyRepr x
  | x :: y :: xs => pyRepr x ++ ", " ++ pyReprList (y :: xs)
/-- Comma-separated `repr` of dict entries. -/
def pyReprObj : List (String × Json) → String
  | [] => ""
  | [(k, v)] => quoteMark ++ k ++ quoteMark ++ ": " ++ pyRepr v
  | (k, v) :: p :: rest =>
    quoteMark ++ k ++ quoteMark ++ ": " ++ pyRepr v ++ ", " ++ pyReprObj (p :: rest)
end

/-- Python `str(value)`: identity on strings, `repr` otherwise. -/
def pyStr : Json → String
  | Json.s st => st
  | v => pyRepr v

/-- One hexadecimal digit (lowercase). -/
def hexDigit (n : ℕ) : Char :=
  if n < 10 then Char.ofNat (48 + n) else Char.ofNat (87 + n)

/-- Four-digit lowercase hex, for `\uXXXX` escapes. -/
def hex4 (n : ℕ) : String :=
  String.mk [hexDigit (n / 4096 % 16), hexDigit (n / 256 % 16), hexDigit (n / 16 % 16),
    hexDigit (n % 16)]

/-- `json.dumps` escaping of one character (default `ensure_ascii=True`). -/
def jsonEscapeChar (c : Char) : String :=
  if c = '"' then "\\\""
  else if c = '\\' then "\\\\"
  else if c = '\n' then "\\n"
  else if c = '\r' then "\\r"
  else if c = '\t' then "\\t"
  else if c = '\x08' then "\\b"
  else if c = '\x0c' then "\\f"
  else if c.toNat < 0x20 then "\\u" ++ hex4 c.toNat
  else if c.toNat < 0x7f then String.singleton c
  else if c.toNat < 0x10000 then "\\u" ++ hex4 c.toNat
  else
    let n := c.toNat - 0x10000
    "\\u" ++ hex4 (0xd800 + n / 0x400) ++ "\\u" ++ hex4 (0xdc00 + n % 0x400)

/-- `json.dumps` of a string. -/
def jsonDumpStr (st : String) : String :=
  "\"" ++ String.join (st.toList.map jsonEscapeChar) ++ "\""

mutual
/-- `json.dumps(v)` with default separators. -/
def jsonDumps : Json → String
  | Json.null => "null"
  | Json.b true => "true"
  | Json.b false => "false"
  | Json.i n => toString n
  | Json.f q => floatRepr q
  | Json.s st => jsonDumpStr st
  | Json.arr xs => "[" ++ jsonDumpsList xs ++ "]"
  | Json.obj kvs => "\x7b" ++ jsonDumpsObj kvs ++ "\x7d"
/-- Comma-separated `dumps` of array elements. -/
def jsonDumpsList : List Json → String
  | [] => ""
  | [x] => jsonDumps x
  | x :: y :: xs => jsonDumps x ++ ", " ++ jsonDumpsList (y :: xs)
/-- Comma-separated `dumps` of object entries. -/
def jsonDumpsObj : List (String × Json) → String
  | [] => ""
  | [(k, v)] => jsonDumpStr k ++ ": " ++ jsonDumps v
  | (k, v) :: p :: rest => jsonDumpStr k ++ ": " ++ jsonDumps v ++ ", " ++ jsonDumpsObj (p :: rest)
end

/-- The PyArrow column types produced by `build_schema_with_metadata`. -/
inductive PAType where
  | date32 : PAType
  | string : PAType
  | int64 : PAType
  | float64 : PAType
  | bool : PAType
deriving DecidableEq, Repr

/-- A coerced cell value of one of the five column types. -/
inductive Coerced where
  | cdate : Date → Coerced
  | cstr : String → Coerced
  | cint : Int → Coerced
  | cfloat : ℚ → Coerced
  | cbool : Bool → Coerced
deriving DecidableEq, Repr

/-- `int(value)` for the `int64` branch of `coerce_value`: numbers (booleans
included, since `bool` is an `int` subtype) truncate toward zero, strings are
parsed, and any `ValueError`/`TypeError` is absorbed into `none`. -/
def intBranch : Json → Option Int
  | Json.b bv => some (if bv then 1 else 0)
  | Json.i n => some n
  | Json.f q => some (q.num.tdiv (q.den : Int))
  | Json.s st => pyIntOfString st
  | _ => none

/-- `float(value)` for the `float64` branch of `coerce_value`, with
`ValueError`/`TypeError` absorbed into `none`. -/
def floatBranch : Json → Option ℚ
  | Json.b bv => some (if bv then 1 else 0)
  | Json.i n => some ((n : ℚ))
  | Json.f q => some q
  | Json.s st => pyFloatOfString st
  | _ => none

/-- `coerce_value` (02_parse.py lines 153-179): `None`/`""` give the absent
marker; otherwise dispatch on the target type.  Only the date branch can let
an exception escape (via `parse_date`). -/
def coerce_value (v : Json) (t : PAType) : Except PyErr (Option Coerced) :=
  if isNoneOrEmptyStr v then Except.ok none
  else
    match t with
    | PAType.date32 => (parse_date v).map (fun od => od.map Coerced.cdate)
    | PAType.string => Except.ok (some (Coerced.cstr (pyStr v)))
    | PAType.int64 => Except.ok ((intBranch v).map Coerced.cint)
    | PAType.float64 => Except.ok ((floatBranch v).map Coerced.cfloat)
    | PAType.bool => Except.ok (some (Coerced.cbool (pyTruthy v)))

/-- `DATE_FIELDS`: field names holding M/D/YYYY dates. -/
def DATE_FIELDS : List String := ["FAILDATE", "RESDATE", "BRDATE", "PTRDATE"]

/-- The keys appearing in any record, in iteration order with repeats
(`all_keys.update(record.keys())` before deduplication). -/
def keysUnion : List Obj → List String
  | [] => []
  | r :: rest => keysOf r ++ keysUnion rest

/-- `sorted(all_keys)`: the distinct observed keys in lexicographic order. -/
def sortedKeys (records : List Obj) : List String :=
  List.insertionSort (fun a b => a ≤ b) (keysUnion records).dedup

/-- The sampling loop of `build_schema_with_metadata`: the value of the first
record in which the key is present with a non-`None` value. -/
def firstSample (key : String) : List Obj → Option Json
  | [] => none
  | r :: rest =>
    match lookup? r key with
    | some v =>
      match v with
      | Json.null => firstSample key rest
      | _ => some v
    | none => firstSample key rest

/-- Type selection of `build_schema_with_metadata` (lines 99-117): known date
fields are `date32` unconditionally; otherwise the `isinstance` chain over
the first sample, checking `bool` before `int`, defaulting to `string`. -/
def inferType (records : List Obj) (key : String) : PAType :=
  if key ∈ DATE_FIELDS then PAType.date32
  else
    match firstSample key records with
    | some (Json.b _) => PAType.bool
    | some (Json.i _) => PAType.int64
    | some (Json.f _) => PAType.float64
    | some _ => PAType.string
    | none => PAType.string

/-- A schema field: name, type and key/value metadata (an empty list models
`metadata=None`). -/
structure SField where
  name : String
  type : PAType
  metadata : List (String × String)
deriving DecidableEq, Repr

/-- The variable-definition mapping handed to `build_schema_with_metadata`
(field name to its YAML `var_info`). -/
abbrev VarDefs := List (String × Json)

/-- One optional metadata entry: `var_info[srcKey].encode("utf-8")`, which
raises `AttributeError` when the value is not a string. -/
def metaEntry (kvs : Obj) (srcKey outKey : String) : Except PyErr (List (String × String)) :=
  match lookup? kvs srcKey with
  | some (Json.s t) => Except.ok [(outKey, t)]
  | some _ => Except.error PyErr.attributeError
  | none => Except.ok []

/-- Metadata block of `build_schema_with_metadata` (lines 119-131): copy
title/description/enum/unit out of `var_info` in insertion order.  A
non-mapping `var_info` raises at `"title" in var_info` (`TypeError`). -/
def buildMetadata (info : Json) : Except PyErr (List (String × String)) :=
  match info with
  | Json.obj kvs =>
    match metaEntry kvs "title" "title" with
    | Except.error e => Except.error e
    | Except.ok m1 =>
      match metaEntry kvs "description" "description" with
      | Except.error e => Except.error e
      | Except.ok m2 =>
        let m3 := match lookup? kvs "enum" with
          | some v => [("enum", jsonDumps v)]
          | none => []
        match metaEntry kvs "x-number-unit" "unit" with
        | Except.error e => Except.error e
        | Except.ok m4 => Except.ok (m1 ++ m2 ++ m3 ++ m4)
  | _ => Except.error PyErr.typeError

/-- Error-propagating map over a list, modelling a Python loop in which an
iteration may raise. -/
def mapE (f : α → Except PyErr β) : List α → Except PyErr (List β)
  | [] => Except.ok []
  | a :: l =>
    match f a with
    | Except.error e => Except.error e
    | Except.ok b =>
      match mapE f l with
      | Except.error e => Except.error e
      | Except.ok bs => Except.ok (b :: bs)

/-- Metadata for one key: the `if key in var_defs` guard of the source. -/
def mdFor (var_defs : VarDefs) (key : String) : Except PyErr (List (String × String)) :=
  match lookup? var_defs key with
  | some info => buildMetadata info
  | none => Except.ok []

/-- One `pa.field(key, pa_type, metadata=...)` of the schema loop. -/
def mkField (records : List Obj) (var_defs : VarDefs) (key : String) : Except PyErr SField :=
  match mdFor var_defs key with
  | Except.error e => Except.error e
  | Except.ok md => Except.ok ⟨key, inferType records key, md⟩

/-- `build_schema_with_metadata` (lines 87-135): empty input gives the empty
schema; otherwise one field per sorted observed key. -/
def build_schema_with_metadata (records : List Obj) (var_defs : VarDefs) :
    Except PyErr (List SField) :=
  if records.isEmpty then Except.ok []
  else mapE (mkField records var_defs) (sortedKeys records)

/-- `coerce_value(record.get(field.name), field.type)`: an absent key yields
Python `None`, i.e. `Json.null`. -/
def coerceField (f : SField) (r : Obj) : Except PyErr (Option Coerced) :=
  coerce_value ((lookup? r f.name).getD Json.null) f.type

/-- The assembled columnar table: each schema field with its column. -/
abbrev Table := List (SField × List (Option Coerced))

/-- One column of `save_parquet`'s `columns` dict.  The source fills all
columns in a single pass over the records; the per-column sequence it
produces is exactly one `coerce_value` result per record in input order,
which is what this builds column by column. -/
def mkColumn (records : List Obj) (f : SField) : Except PyErr (SField × List (Option Coerced)) :=
  match mapE (coerceField f) records with
  | Except.error e => Except.error e
  | Except.ok col => Except.ok (f, col)

/-- The table construction of `save_parquet` (lines 190-202): build the
schema, then one column per schema field. -/
def save_parquet_table (records : List Obj) (var_defs : VarDefs) : Except PyErr Table :=
  match build_schema_with_metadata records var_defs with
  | Except.error e => Except.error e
  | Except.ok sch => mapE (mkColumn records) sch

/-- `flatten_records` (lines 76-84): unwrap `record["data"]` when the key is
present, otherwise keep the record as is. -/
def flatten_records (records : List Obj) : List Json :=
  records.map (fun r =>
    match lookup? r "data" with
    | some v => v
    | none => Json.obj r)

/-- `data.get(k, ...)` with a `dict` default: raises `AttributeError` when
the receiver is not a mapping. -/
def pyGetDefault (v : Json) (k : String) : Except PyErr Json :=
  match v with
  | Json.obj kvs => Except.ok ((lookup? kvs k).getD (Json.obj []))
  | _ => Except.error PyErr.attributeError

/-- `load_variable_definitions` (lines 55-73): a missing file gives `{}`
(with a warning); a falsy document gives `{}`; otherwise the nested
`properties.data.properties` branch is extracted with `{}` defaults. -/
def load_variable_definitions (doc : Option Json) : Except PyErr Json :=
  match doc with
  | none => Except.ok (Json.obj [])
  | some d =>
    if pyTruthy d = false then Except.ok (Json.obj [])
    else
      match pyGetDefault d "properties" with
      | Except.error e => Except.error e
      | Except.ok p1 =>
        match pyGetDefault p1 "data" with
        | Except.error e => Except.error e
        | Except.ok p2 => pyGetDefault p2 "properties"

/-- Totalised `v.get(k, ..)` used only to state properties: non-mappings and
absent keys give the empty mapping. -/
def objGetD (v : Json) (k : String) : Json :=
  match v with
  | Json.obj kvs => (lookup? kvs k).getD (Json.obj [])
  | _ => Json.obj []

/-- Whether `v` is a mapping. -/
def isObj : Json → Bool
  | Json.obj _ => true
  | _ => false

/-- The documents on which the loader's nested `.get` chain cannot raise:
missing, falsy, or a mapping whose traversed `properties` and
`properties.data` nodes are mappings (absent nodes default to `{}`). -/
def docShapeOk : Option Json → Bool
  | none => true
  | some d =>
    !pyTruthy d ||
      (isObj d && isObj (objGetD d "properties") && isObj (objGetD (objGetD d "properties") "data"))

/-- The loader's result as the specification words it: empty mapping for a
missing or empty document, otherwise the mapping found at the fixed path
`properties.data.properties` (absent branches defaulting to empty). -/
def extractSpec (doc : Option Json) : Json :=
  match doc with
  | none => Json.obj []
  | some d =>
    if pyTruthy d = false then Json.obj []
    else objGetD (objGetD (objGetD d "properties") "data") "properties"

/-- Observable side effects of one run of the parse stage. -/
inductive Action where
  | readRaw : Action
  | readYaml : Action
  | writeProcessed : String → Action
deriving DecidableEq, Repr

/-- The files the failures parse stage touches: the latest raw snapshot (as
already-parsed envelopes, `none` when no file matches), the YAML definitions
document (`none` when the file is missing), and the existing processed
output files. -/
structure ParseState where
  raw : Option (List Obj)
  yamlDoc : Option Json
  processed : List (String × Table)

/-- `output_exists` (lines 43-46): some file matches the output pattern. -/
def output_exists (st : ParseState) : Bool := !st.processed.isEmpty

/-- `pq.write_table(table, filepath)`: create or overwrite one file. -/
def storeFile (files : List (String × Table)) (name : String) (t : Table) :
    List (String × Table) :=
  files.filter (fun p => p.1 != name) ++ [(name, t)]

/-- Flattened records reused as mappings; a non-mapping raises at its first
attribute access in `build_schema_with_metadata`, modelled here as an
upfront check. -/
def asObjs (l : List Json) : Except PyErr (List Obj) :=
  mapE (fun v =>
    match v with
    | Json.obj kvs => Except.ok kvs
    | _ => Except.error PyErr.attributeError) l

/-- The loader result reused as a mapping by `key in var_defs`; a
non-mapping raises at that first use, modelled as an upfront check. -/
def asVarDefs (v : Json) : Except PyErr VarDefs :=
  match v with
  | Json.obj kvs => Except.ok kvs
  | _ => Except.error PyErr.typeError

/-- `save_parquet` (lines 182-206) at stage level: empty input writes
nothing; otherwise the table is built and written to the dated file. -/
def save_parquet_run (flat : List Obj) (name : String) (vd : VarDefs) (st : ParseState) :
    Except PyErr (ParseState × List Action) :=
  if flat.isEmpty then Except.ok (st, [])
  else
    match save_parquet_table flat vd with
    | Except.error e => Except.error e
    | Except.ok tbl =>
      Except.ok ({ st with processed := storeFile st.processed name tbl },
        [Action.writeProcessed name])

/-- `parse_failures` (lines 209-233): skip when output exists and `--force`
is not given; otherwise read the latest snapshot, flatten, load definitions
and save; a missing snapshot only warns. -/
def parse_failures (force : Bool) (today : String) (st : ParseState) :
    Except PyErr (ParseState × List Action) :=
  if !force && output_exists st then Except.ok (st, [])
  else
    match st.raw with
    | none => Except.ok (st, [])
    | some records =>
      match asObjs (flatten_records records) with
      | Except.error e => Except.error e
      | Except.ok flat =>
        match load_variable_definitions st.yamlDoc with
        | Except.error e => Except.error e
        | Except.ok vdJson =>
          match asVarDefs vdJson with
          | Except.error e => Except.error e
          | Except.ok vd =>
            match save_parquet_run flat ("failures_" ++ today ++ ".parquet") vd st with
            | Except.error e => Except.error e
            | Except.ok (st', acts) =>
              Except.ok (st', Action.readRaw :: Action.readYaml :: acts)

/-- Whether a value is Python `None`. -/
def isNull : Json → Bool
  | Json.null => true
  | _ => false

/-- The sampling condition `key in record and record[key] is not None`,
restated on one record (used to phrase first-sample-wins via `find?`). -/
def presentNonNull (r : Obj) (key : String) : Bool :=
  match lookup? r key with
  | some v => !isNull v
  | none => false

/-- The runtime-kind-to-column-type mapping the spec describes: booleans,
integers and floats map to their own types, everything else to string. -/
def runtimeKind : Json → PAType
  | Json.b _ => PAType.bool
  | Json.i _ => PAType.int64
  | Json.f _ => PAType.float64
  | _ => PAType.string

/-- An optional entry that, when present, is a string. -/
def strOpt : Option Json → Bool
  | some (Json.s _) => true
  | some _ => false
  | none => true

/-- A well-formed Field Definition as the data model describes it: a mapping
whose `title`, `description` and `x-number-unit` entries, when present, are
strings (the `enum` entry is JSON-serialised whatever it is). -/
def wfVarInfo : Json → Bool
  | Json.obj kvs =>
    strOpt (lookup? kvs "title") && strOpt (lookup? kvs "description") &&
      strOpt (lookup? kvs "x-number-unit")
  | _ => false

/-- The metadata entries the spec says a documented column carries: exactly
the title, description, JSON-encoded enum and unit present in its Field
Definition. -/
def expectedMeta (kvs : Obj) : List (String × String) :=
  (match lookup? kvs "title" with
    | some (Json.s t) => [("title", t)]
    | _ => []) ++
  (match lookup? kvs "description" with
    | some (Json.s d) => [("description", d)]
    | _ => []) ++
  (match lookup? kvs "enum" with
    | some v => [("enum", jsonDumps v)]
    | none => []) ++
  (match lookup? kvs "x-number-unit" with
    | some (Json.s u) => [("unit", u)]
    | _ => [])

theorem mapE_forall₂ {α β : Type _} {f : α → Except PyErr β} :
    ∀ {l : List α} {ys : List β}, mapE f l = Except.ok ys →
      List.Forall₂ (fun a b => f a = Except.ok b) l ys := by
  intro l
  induction l with
  | nil =>
    intro ys h
    simp only [mapE, Except.ok.injEq] at h
    subst h
    exact List.Forall₂.nil
  | cons a l ih =>
    intro ys h
    unfold mapE at h
    cases hfa : f a with
    | error e => rw [hfa] at h; exact absurd h (by simp)
    | ok b =>
      rw [hfa] at h
      cases hml : mapE f l with
      | error e => rw [hml] at h; exact absurd h (by simp)
      | ok bs =>
        rw [hml] at h
        simp only [Except.ok.injEq] at h
        subst h
        exact List.Forall₂.cons hfa (ih hml)

theorem forall₂_getElem_left {α β : Type _} {R : α → β → Prop} :
    ∀ {l : List α} {ys : List β}, List.Forall₂ R l ys →
      ∀ (i : ℕ) (a : α), l[i]? = some a → ∃ b, ys[i]? = some b ∧ R a b := by
  intro l ys h
  induction h with
  | nil => intro i a ha; simp at ha
  | cons hR _ ih =>
    intro i a ha
    cases i with
    | zero =>
      simp only [List.getElem?_cons_zero, Option.some.injEq] at ha
      subst ha
      exact ⟨_, by simp, hR⟩
    | succ n =>
      simp only [List.getElem?_cons_succ] at ha ⊢
      exact ih n a ha

theorem forall₂_mem_right {α β : Type _} {R : α → β → Prop} :
    ∀ {l : List α} {ys : List β}, List.Forall₂ R l ys →
      ∀ b ∈ ys, ∃ a ∈ l, R a b := by
  intro l ys h
  induction h with
  | nil => intro b hb; simp at hb
  | cons hR _ ih =>
    intro b hb
    rcases List.mem_cons.mp hb with rfl | hb'
    · exact ⟨_, List.mem_cons_self _ _, hR⟩
    · obtain ⟨a, ha, hr⟩ := ih b hb'
      exact ⟨a, List.mem_cons_of_mem _ ha, hr⟩

theorem forall₂_map_eq {α β : Type _} {R : α → β → Prop} {g : β → α} :
    ∀ {l : List α} {ys : List β}, List.Forall₂ R l ys →
      (∀ a b, R a b → g b = a) → ys.map g = l := by
  intro l ys h hg
  induction h with
  | nil => rfl
  | cons hR _ ih => simp only [List.map_cons, hg _ _ hR, ih]

theorem mapE_ok_forall {α β : Type _} {f : α → Except PyErr β} :
    ∀ {l : List α}, (∀ a ∈ l, ∃ b, f a = Except.ok b) →
      ∃ ys, mapE f l = Except.ok ys ∧
        List.Forall₂ (fun a b => f a = Except.ok b) l ys := by
  intro l
  induction l with
  | nil => intro _; exact ⟨[], rfl, List.Forall₂.nil⟩
  | cons a l ih =>
    intro h
    obtain ⟨b, hb⟩ := h a (List.mem_cons_self _ _)
    obtain ⟨ys, hys, hf⟩ := ih (fun x hx => h x (List.mem_cons_of_mem _ hx))
    exact ⟨b :: ys, by simp [mapE, hb, hys], List.Forall₂.cons hb hf⟩

theorem lookup_isSome_iff {r : Obj} {k : String} :
    (lookup? r k).isSome = true ↔ k ∈ keysOf r := by
  induction r with
  | nil => simp [lookup?, keysOf]
  | cons p rest ih =>
    obtain ⟨k', v⟩ := p
    by_cases hk : k' = k
    · subst hk; simp [lookup?, keysOf]
    · simp only [lookup?, if_neg hk, keysOf, List.map_cons, List.mem_cons, ih]
      constructor
      · intro h; exact Or.inr h
      · rintro (rfl | h)
        · exact absurd rfl hk
        · exact h

theorem lookup_mem {r : Obj} {k : String} {v : Json} :
    lookup? r k = some v → (k, v) ∈ r := by
  induction r with
  | nil => intro h; simp [lookup?] at h
  | cons p rest ih =>
    intro h
    obtain ⟨k', v'⟩ := p
    by_cases hk : k' = k
    · subst hk
      have h' : v' = v := by simpa [lookup?] using h
      subst h'
      exact List.mem_cons_self _ _
    · rw [lookup?, if_neg hk] at h
      exact List.mem_cons_of_mem _ (ih h)

theorem mem_keysUnion {k : String} :
    ∀ {records : List Obj}, k ∈ keysUnion records ↔ ∃ r ∈ records, k ∈ keysOf r := by
  intro records
  induction records with
  | nil => simp [keysUnion]
  | cons r rest ih =>
    simp only [keysUnion, List.mem_append, ih, List.mem_cons]
    constructor
    · rintro (h | ⟨r', hr', hk⟩)
      · exact ⟨r, Or.inl rfl, h⟩
      · exact ⟨r', Or.inr hr', hk⟩
    · rintro ⟨r', rfl | hr', hk⟩
      · exact Or.inl hk
      · exact Or.inr ⟨r', hr', hk⟩

theorem mem_sortedKeys {records : List Obj} {k : String} :
    k ∈ sortedKeys records ↔ ∃ r ∈ records, (lookup? r k).isSome = true := by
  unfold sortedKeys
  rw [(List.perm_insertionSort _ _).mem_iff, List.mem_dedup, mem_keysUnion]
  exact exists_congr fun r => and_congr_right fun _ => lookup_isSome_iff.symm

theorem sortedKeys_nodup (records : List Obj) : (sortedKeys records).Nodup :=
  (List.perm_insertionSort _ _).symm.nodup (List.nodup_dedup _)

theorem sorted_lt_of_le_nodup {l : List String}
    (h1 : l.Sorted (fun a b => a ≤ b)) (h2 : l.Nodup) : l.Sorted (fun a b => a < b) := by
  induction l with
  | nil => exact List.sorted_nil
  | cons a l ih =>
    rw [List.sorted_cons] at h1 ⊢
    rw [List.nodup_cons] at h2
    refine ⟨fun b hb => lt_of_le_of_ne (h1.1 b hb) ?_, ih h1.2 h2.2⟩
    rintro rfl
    exact h2.1 hb

theorem sortedKeys_sorted_lt (records : List Obj) :
    (sortedKeys records).Sorted (fun a b => a < b) :=
  sorted_lt_of_le_nodup (List.sorted_insertionSort _ _) (sortedKeys_nodup records)

theorem firstSample_eq_find (key : String) :
    ∀ records : List Obj,
      firstSample key records =
        (records.find? (fun r => presentNonNull r key)).map
          (fun r => (lookup? r key).getD Json.null) := by
  intro records
  induction records with
  | nil => rfl
  | cons r rest ih =>
    cases hv : lookup? r key with
    | none =>
      have hp : presentNonNull r key = false := by simp [presentNonNull, hv]
      rw [List.find?_cons_of_neg _ (by simp [hp])]
      simp only [firstSample, hv]
      exact ih
    | some v =>
      cases v with
      | null =>
        have hp : presentNonNull r key = false := by simp [presentNonNull, hv, isNull]
        rw [List.find?_cons_of_neg _ (by simp [hp])]
        simp only [firstSample, hv]
        exact ih
      | b bv =>
        have hp : presentNonNull r key = true := by simp [presentNonNull, hv, isNull]
        rw [List.find?_cons_of_pos _ (by simp [hp])]
        simp [firstSample, hv]
      | i n =>
        have hp : presentNonNull r key = true := by simp [presentNonNull, hv, isNull]
        rw [List.find?_cons_of_pos _ (by simp [hp])]
        simp [firstSample, hv]
      | f q =>
        have hp : presentNonNull r key = true := by simp [presentNonNull, hv, isNull]
        rw [List.find?_cons_of_pos _ (by simp [hp])]
        simp [firstSample, hv]
      | s st =>
        have hp : presentNonNull r key = true := by simp [presentNonNull, hv, isNull]
        rw [List.find?_cons_of_pos _ (by simp [hp])]
        simp [firstSample, hv]
      | arr xs =>
        have hp : presentNonNull r key = true := by simp [presentNonNull, hv, isNull]
        rw [List.find?_cons_of_pos _ (by simp [hp])]
        simp [firstSample, hv]
      | obj kvs =>
        have hp : presentNonNull r key = true := by simp [presentNonNull, hv, isNull]
        rw [List.find?_cons_of_pos _ (by simp [hp])]
        simp [firstSample, hv]

theorem inferType_nondate {records : List Obj} {key : String} (hk : key ∉ DATE_FIELDS) :
    inferType records key =
      match (records.find? (fun r => presentNonNull r key)).map
          (fun r => (lookup? r key).getD Json.null) with
      | some v => runtimeKind v
      | none => PAType.string := by
  unfold inferType
  rw [if_neg hk, ← firstSample_eq_find]
  cases hs : firstSample key records with
  | none => rfl
  | some v => cases v <;> rfl

theorem mkField_ok {records : List Obj} {defs : VarDefs} {key : String} {fld : SField}
    (h : mkField records defs key = Except.ok fld) :
    fld.name = key ∧ fld.type = inferType records key ∧
      mdFor defs key = Except.ok fld.metadata := by
  unfold mkField at h
  cases hmd : mdFor defs key with
  | error e => rw [hmd] at h; exact absurd h (by simp)
  | ok md =>
    rw [hmd] at h
    simp only [Except.ok.injEq] at h
    subst h
    exact ⟨rfl, rfl, rfl⟩

theorem build_schema_forall₂ {records : List Obj} {defs : VarDefs} {sch : List SField}
    (hne : records ≠ []) (h : build_schema_with_metadata records defs = Except.ok sch) :
    List.Forall₂ (fun key fld => mkField records defs key = Except.ok fld)
      (sortedKeys records) sch := by
  unfold build_schema_with_metadata at h
  rw [if_neg (by simp [List.isEmpty_iff, hne])] at h
  exact mapE_forall₂ h

theorem mkColumn_ok {records : List Obj} {f : SField} {c : SField × List (Option Coerced)}
    (h : mkColumn records f = Except.ok c) :
    c.1 = f ∧ List.Forall₂ (fun r v => coerceField f r = Except.ok v) records c.2 := by
  unfold mkColumn at h
  cases hcol : mapE (coerceField f) records with
  | error e => rw [hcol] at h; exact absurd h (by simp)
  | ok col =>
    rw [hcol] at h
    simp only [Except.ok.injEq] at h
    subst h
    exact ⟨rfl, mapE_forall₂ hcol⟩

theorem coerce_null (t : PAType) : coerce_value Json.null t = Except.ok none := rfl

theorem metaEntry_wf {kvs : Obj} {src out : String} (h : strOpt (lookup? kvs src) = true) :
    metaEntry kvs src out =
      Except.ok (match lookup? kvs src with
        | some (Json.s t) => [(out, t)]
        | _ => []) := by
  unfold metaEntry
  cases hl : lookup? kvs src with
  | none => rfl
  | some v =>
    rw [hl] at h
    cases v <;> first
      | rfl
      | simp [strOpt] at h

theorem wfVarInfo_obj {info : Json} (h : wfVarInfo info = true) :
    ∃ kvs, info = Json.obj kvs := by
  cases info <;> simp_all [wfVarInfo]

theorem buildMetadata_wf {kvs : Obj} (h : wfVarInfo (Json.obj kvs) = true) :
    buildMetadata (Json.obj kvs) = Except.ok (expectedMeta kvs) := by
  unfold wfVarInfo at h
  simp only [Bool.and_eq_true] at h
  obtain ⟨⟨ht, hd⟩, hu⟩ := h
  show (match metaEntry kvs "title" "title" with
    | Except.error e => Except.error e
    | Except.ok m1 =>
      match metaEntry kvs "description" "description" with
      | Except.error e => Except.error e
      | Except.ok m2 =>
        let m3 := match lookup? kvs "enum" with
          | some v => [("enum", jsonDumps v)]
          | none => []
        match metaEntry kvs "x-number-unit" "unit" with
        | Except.error e => Except.error e
        | Except.ok m4 => Except.ok (m1 ++ m2 ++ m3 ++ m4)) = Except.ok (expectedMeta kvs)
  rw [metaEntry_wf ht, metaEntry_wf hd, metaEntry_wf hu]
  rfl

theorem mdFor_wf {defs : VarDefs} {key : String}
    (hwf : ∀ p ∈ defs, wfVarInfo p.2 = true) :
    mdFor defs key =
      Except.ok (match lookup? defs key with
        | some (Json.obj kvs) => expectedMeta kvs
        | _ => []) := by
  unfold mdFor
  cases hl : lookup? defs key with
  | none => rfl
  | some info =>
    have hw : wfVarInfo info = true := hwf (key, info) (lookup_mem hl)
    obtain ⟨kvs, rfl⟩ := wfVarInfo_obj hw
    show buildMetadata (Json.obj kvs) = Except.ok (expectedMeta kvs)
    exact buildMetadata_wf hw

/-- C1: the claim says coercion never raises, but a date-typed column (a
`DATE_FIELDS` name is `date32` regardless of its data) given a non-string,
non-absent value such as the integer 42 reaches `datetime.strptime`, which
raises `TypeError`; `parse_date` catches only `ValueError`, so the exception
escapes and aborts the run.  This theorem evaluates the embedded coercer at
that failing input. -/
theorem c1_date_coercion_typeerror :
    coerce_value (Json.i 42) PAType.date32 = Except.error PyErr.typeError := rfl

/-- C4: flattening preserves length and order; each output element is the
value under `"data"` when that key is present, and the unchanged envelope
otherwise; the function is total, so no error is possible. -/
theorem c4_flatten_pointwise (records : List Obj) :
    (flatten_records records).length = records.length ∧
    ∀ i : ℕ,
      (flatten_records records)[i]? =
        (records[i]?).map (fun r =>
          match lookup? r "data" with
          | some v => v
          | none => Json.obj r) := by
  refine ⟨by simp [flatten_records], fun i => ?_⟩
  simp [flatten_records]

/-- C5: the concrete coercion examples of the spec: both date formats parse
to 1933-03-04, empty/null/unparseable dates are absent, `"42"` parses to 42,
the float 42.9 truncates to 42, and `"abc"` is absent. -/
theorem c5_coercion_examples :
    coerce_value (Json.s "3/4/1933") PAType.date32 =
      Except.ok (some (Coerced.cdate ⟨1933, 3, 4⟩)) ∧
    coerce_value (Json.s "1933-03-04") PAType.date32 =
      Except.ok (some (Coerced.cdate ⟨1933, 3, 4⟩)) ∧
    coerce_value (Json.s "") PAType.date32 = Except.ok none ∧
    coerce_value Json.null PAType.date32 = Except.ok none ∧
    coerce_value (Json.s "not-a-date") PAType.date32 = Except.ok none ∧
    coerce_value (Json.s "42") PAType.int64 = Except.ok (some (Coerced.cint 42)) ∧
    mkRat 429 10 = (429 : ℚ) / 10 ∧
    coerce_value (Json.f (mkRat 429 10)) PAType.int64 = Except.ok (some (Coerced.cint 42)) ∧
    coerce_value (Json.s "abc") PAType.int64 = Except.ok none :=
  ⟨rfl, rfl, rfl, rfl, rfl, rfl, by rw [Rat.mkRat_eq_div]; norm_num, rfl, rfl⟩

/-- C6: for boolean targets every non-absent, non-empty-string value is
converted by Python's generic truthiness, with no special-casing of
falsy-looking text; in particular the string `"false"` coerces to `true`. -/
theorem c6_bool_truthiness (v : Json) (h : isNoneOrEmptyStr v = false) :
    coerce_value v PAType.bool = Except.ok (some (Coerced.cbool (pyTruthy v))) ∧
    coerce_value (Json.s "false") PAType.bool = Except.ok (some (Coerced.cbool true)) := by
  refine ⟨?_, rfl⟩
  unfold coerce_value
  rw [if_neg (by simp [h])]

/-- Witness for C6 at the value `"false"`. -/
theorem c6_bool_truthiness_witness :
    coerce_value (Json.s "false") PAType.bool =
      Except.ok (some (Coerced.cbool (pyTruthy (Json.s "false")))) ∧
    coerce_value (Json.s "false") PAType.bool = Except.ok (some (Coerced.cbool true)) :=
  c6_bool_truthiness (Json.s "false") rfl

/-- C9: without `--force`, when a processed output file already exists the
stage returns immediately: the state (in particular the existing output) is
unchanged and the action log is empty — nothing is read or written. -/
theorem c9_skip_if_exists (st : ParseState) (today : String)
    (h : output_exists st = true) :
    parse_failures false today st = Except.ok (st, []) := by
  simp [parse_failures, h]

/-- Witness for C9 on a state with one existing output file. -/
theorem c9_skip_if_exists_witness :
    parse_failures false "20240102"
        ⟨none, none, [("failures_20240101.parquet", [])]⟩ =
      Except.ok (⟨none, none, [("failures_20240101.parquet", [])]⟩, []) :=
  c9_skip_if_exists _ _ rfl

/-- C10: when a field's first present, non-null sample is a boolean, the
inferred type is boolean and not integer — the source checks `bool` before
`int` even though Python treats `bool` as a subtype of `int`. -/
theorem c10_bool_before_int (records : List Obj) (key : String) (bv : Bool)
    (hk : key ∉ DATE_FIELDS) (hs : firstSample key records = some (Json.b bv)) :
    inferType records key = PAType.bool ∧ inferType records key ≠ PAType.int64 := by
  unfold inferType
  rw [if_neg hk, hs]
  exact ⟨rfl, by simp⟩

/-- Witness for C10 on a one-record set whose sample is `True`. -/
theorem c10_bool_before_int_witness :
    inferType [[("X", Json.b true)]] "X" = PAType.bool ∧
    inferType [[("X", Json.b true)]] "X" ≠ PAType.int64 :=
  c10_bool_before_int [[("X", Json.b true)]] "X" true (by decide) rfl

theorem isObj_iff {v : Json} : isObj v = true ↔ ∃ kvs, v = Json.obj kvs := by
  cases v <;> simp [isObj]

/-- C2: every column of the built schema is typed by the spec's rule: date
fields unconditionally `date32`; otherwise the runtime kind of the value of
the first record (in input order) in which the field is present and
non-null, defaulting to string when there is no such sample. -/
theorem c2_first_sample_typing (records : List Obj) (defs : VarDefs) (sch : List SField)
    (f : SField) (hne : records ≠ [])
    (hs : build_schema_with_metadata records defs = Except.ok sch) (hf : f ∈ sch) :
    (f.name ∈ DATE_FIELDS → f.type = PAType.date32) ∧
    (f.name ∉ DATE_FIELDS →
      f.type =
        match (records.find? (fun r => presentNonNull r f.name)).map
            (fun r => (lookup? r f.name).getD Json.null) with
        | some v => runtimeKind v
        | none => PAType.string) := by
  obtain ⟨key, _hkey, hmk⟩ := forall₂_mem_right (build_schema_forall₂ hne hs) f hf
  obtain ⟨hname, htype, -⟩ := mkField_ok hmk
  constructor
  · intro hd
    rw [htype]
    unfold inferType
    rw [if_pos (hname ▸ hd)]
  · intro hd
    rw [htype, hname]
    exact inferType_nondate (hname ▸ hd)

/-- Witness for C2 on a one-record, one-field input whose sample is the
integer 7. -/
theorem c2_first_sample_typing_witness :
    ((SField.mk "A" PAType.int64 []).name ∈ DATE_FIELDS →
      (SField.mk "A" PAType.int64 []).type = PAType.date32) ∧
    ((SField.mk "A" PAType.int64 []).name ∉ DATE_FIELDS →
      (SField.mk "A" PAType.int64 []).type =
        match ([[("A", Json.i 7)]].find?
            (fun r => presentNonNull r (SField.mk "A" PAType.int64 []).name)).map
            (fun r => (lookup? r (SField.mk "A" PAType.int64 []).name).getD Json.null) with
        | some v => runtimeKind v
        | none => PAType.string) :=
  c2_first_sample_typing [[("A", Json.i 7)]] [] [SField.mk "A" PAType.int64 []]
    (SField.mk "A" PAType.int64 []) (by simp) rfl (List.mem_cons_self _ _)

/-- C8 counterexample: a present, truthy document that is not a mapping
(the YAML scalar `5`) makes the loader raise `AttributeError` at
`data.get("properties", ...)` instead of returning a mapping, so the claim
as stated fails on it. -/
theorem c8_loader_counterexample :
    load_variable_definitions (some (Json.i 5)) = Except.error PyErr.attributeError := rfl

/-- C8 amended: a missing or falsy document yields the empty mapping, and —
provided the traversed `properties` and `properties.data` nodes of a
present, truthy document are mappings (absent ones defaulting to empty) —
the loader returns exactly the value at `properties.data.properties`, with
absent branches defaulting to the empty mapping. -/
theorem c8_loader_fixed_path (doc : Option Json) (h : docShapeOk doc = true) :
    load_variable_definitions doc = Except.ok (extractSpec doc) := by
  cases doc with
  | none => rfl
  | some d =>
    simp only [docShapeOk] at h
    cases hpt : pyTruthy d with
    | false => simp [load_variable_definitions, extractSpec, hpt]
    | true =>
      rw [hpt] at h
      simp only [Bool.not_true, Bool.false_or, Bool.and_eq_true] at h
      obtain ⟨⟨h1, h2⟩, h3⟩ := h
      obtain ⟨kvs, rfl⟩ := isObj_iff.mp h1
      obtain ⟨kvs1, e2⟩ := isObj_iff.mp h2
      rw [e2] at h3
      obtain ⟨kvs2, e3⟩ := isObj_iff.mp h3
      simp only [objGetD] at e2 e3
      simp [load_variable_definitions, extractSpec, pyGetDefault, objGetD, hpt, e2, e3]

/-- Witness for C8 on a well-shaped document with one documented field. -/
theorem c8_loader_fixed_path_witness :
    load_variable_definitions (some (Json.obj [("properties", Json.obj [("data",
        Json.obj [("properties", Json.obj [("NAME", Json.s "t")])])])])) =
      Except.ok (extractSpec (some (Json.obj [("properties", Json.obj [("data",
        Json.obj [("properties", Json.obj [("NAME", Json.s "t")])])])]))) :=
  c8_loader_fixed_path _ rfl

/-- C3: the assembled table has exactly the union of observed field names as
columns (an absent field contributes an absent value, not an error), in
lexicographic column order, with every column as long as the record list and
row `i` coerced from record `i`. -/
theorem c3_table_shape (records : List Obj) (defs : VarDefs) (tbl : Table)
    (c : SField × List (Option Coerced)) (i : ℕ) (r : Obj) (k : String)
    (hne : records ≠ [])
    (h : save_parquet_table records defs = Except.ok tbl)
    (hc : c ∈ tbl)
    (hir : records[i]? = some r) :
    tbl.map (fun x => x.1.name) = sortedKeys records ∧
    (tbl.map (fun x => x.1.name)).Sorted (fun a b => a < b) ∧
    ((∃ x ∈ tbl, x.1.name = k) ↔ ∃ r' ∈ records, (lookup? r' k).isSome = true) ∧
    c.2.length = records.length ∧
    (∃ ov, coerceField c.1 r = Except.ok ov ∧ c.2[i]? = some ov) ∧
    (lookup? r c.1.name = none → c.2[i]? = some none) := by
  unfold save_parquet_table at h
  cases hsch : build_schema_with_metadata records defs with
  | error e => rw [hsch] at h; exact absurd h (by simp)
  | ok sch =>
    rw [hsch] at h
    have F2o := mapE_forall₂ h
    have F2s := build_schema_forall₂ hne hsch
    have hmap1 : tbl.map Prod.fst = sch :=
      forall₂_map_eq F2o (fun f c hfc => (mkColumn_ok hfc).1)
    have hmap2 : sch.map SField.name = sortedKeys records :=
      forall₂_map_eq F2s (fun key fld hk => (mkField_ok hk).1)
    have hnames : tbl.map (fun x => x.1.name) = sortedKeys records := by
      rw [← hmap2, ← hmap1, List.map_map]
      rfl
    obtain ⟨f, _hfsch, hmk⟩ := forall₂_mem_right F2o c hc
    obtain ⟨hc1, F2col⟩ := mkColumn_ok hmk
    obtain ⟨ov, hisome, hcoerce⟩ := forall₂_getElem_left F2col i r hir
    refine ⟨hnames, hnames ▸ sortedKeys_sorted_lt records, ?_, F2col.length_eq.symm, ?_, ?_⟩
    · rw [← mem_sortedKeys, ← hnames]
      constructor
      · rintro ⟨x, hx, rfl⟩
        exact List.mem_map_of_mem _ hx
      · intro hk
        obtain ⟨x, hx, he⟩ := List.mem_map.mp hk
        exact ⟨x, hx, he⟩
    · exact ⟨ov, by rw [hc1]; exact hcoerce, hisome⟩
    · intro hnone
      rw [hc1] at hnone
      have hnull : coerceField f r = Except.ok none := by
        unfold coerceField
        rw [hnone]
        exact coerce_null f.type
      rw [hnull] at hcoerce
      simp only [Except.ok.injEq] at hcoerce
      rw [← hcoerce] at hisome
      exact hisome

/-- Witness for C3 on a one-record, one-field input. -/
theorem c3_table_shape_witness :
    [((SField.mk "A" PAType.int64 []), [some (Coerced.cint 7)])].map
        (fun x => x.1.name) = sortedKeys [[("A", Json.i 7)]] ∧
    ([((SField.mk "A" PAType.int64 []), [some (Coerced.cint 7)])].map
        (fun x => x.1.name)).Sorted (fun a b => a < b) ∧
    ((∃ x ∈ [((SField.mk "A" PAType.int64 []), [some (Coerced.cint 7)])], x.1.name = "A") ↔
      ∃ r' ∈ [[("A", Json.i 7)]], (lookup? r' "A").isSome = true) ∧
    ((SField.mk "A" PAType.int64 []), [some (Coerced.cint 7)]).2.length =
      [[("A", Json.i 7)]].length ∧
    (∃ ov, coerceField ((SField.mk "A" PAType.int64 []), [some (Coerced.cint 7)]).1
        [("A", Json.i 7)] = Except.ok ov ∧
      ((SField.mk "A" PAType.int64 []), [some (Coerced.cint 7)]).2[0]? = some ov) ∧
    (lookup? [("A", Json.i 7)] ((SField.mk "A" PAType.int64 []), [some (Coerced.cint 7)]).1.name =
        none →
      ((SField.mk "A" PAType.int64 []), [some (Coerced.cint 7)]).2[0]? = some none) :=
  c3_table_shape [[("A", Json.i 7)]] []
    [((SField.mk "A" PAType.int64 []), [some (Coerced.cint 7)])]
    ((SField.mk "A" PAType.int64 []), [some (Coerced.cint 7)]) 0 [("A", Json.i 7)] "A"
    (by simp) rfl (List.mem_cons_self _ _) rfl

/-- C7: with well-formed Field Definitions the pipeline does not fail, every
column whose name is in the mapping carries exactly the title, description,
JSON-encoded enum and unit entries present in its definition, and every
column absent from the mapping carries no metadata. -/
theorem c7_metadata_attachment (records : List Obj) (defs : VarDefs)
    (hne : records ≠ []) (hwf : ∀ p ∈ defs, wfVarInfo p.2 = true) :
    ∃ sch, build_schema_with_metadata records defs = Except.ok sch ∧
      ∀ f ∈ sch,
        (∀ kvs, lookup? defs f.name = some (Json.obj kvs) → f.metadata = expectedMeta kvs) ∧
        (lookup? defs f.name = none → f.metadata = []) := by
  have hmk : ∀ key ∈ sortedKeys records, ∃ fld, mkField records defs key = Except.ok fld := by
    intro key _
    refine ⟨⟨key, inferType records key,
      (match lookup? defs key with
        | some (Json.obj kvs) => expectedMeta kvs
        | _ => [])⟩, ?_⟩
    unfold mkField
    rw [mdFor_wf hwf]
  obtain ⟨sch, hs, F2⟩ := mapE_ok_forall hmk
  refine ⟨sch, ?_, ?_⟩
  · unfold build_schema_with_metadata
    rw [if_neg (by simp [List.isEmpty_iff, hne])]
    exact hs
  · intro f hf
    obtain ⟨key, _, hmkf⟩ := forall₂_mem_right F2 f hf
    obtain ⟨hname, _, hmd⟩ := mkField_ok hmkf
    rw [mdFor_wf hwf] at hmd
    simp only [Except.ok.injEq] at hmd
    constructor
    · intro kvs hl
      rw [hname] at hl
      rw [hl] at hmd
      exact hmd.symm
    · intro hl
      rw [hname] at hl
      rw [hl] at hmd
      exact hmd.symm

/-- Witness for C7 on one record and one documented field. -/
theorem c7_metadata_attachment_witness :
    ∃ sch, build_schema_with_metadata [[("A", Json.s "x")]]
        [("A", Json.obj [("title", Json.s "T")])] = Except.ok sch ∧
      ∀ f ∈ sch,
        (∀ kvs, lookup? [("A", Json.obj [("title", Json.s "T")])] f.name =
            some (Json.obj kvs) → f.metadata = expectedMeta kvs) ∧
        (lookup? [("A", Json.obj [("title", Json.s "T")])] f.name = none →
          f.metadata = []) :=
  c7_metadata_attachment [[("A", Json.s "x")]] [("A", Json.obj [("title", Json.s "T")])]
    (by simp) (by decide)

end FdicParse
